import Mathlib

/-
Verification development for the orb submission service (src/app.py, src/database.py).

The Python code is shallowly embedded: Python `str` values are `List Char`
(`PyStr`), bytes are `List Nat`, `None`-able values are `Option`, and the two
effectful oracles of a request (whether `image.save` succeeds and whether the
sqlite connection/insert succeeds) are explicit `Bool` parameters.  External
libraries (Pillow, CPython `base64`) are modelled by executable Lean functions
whose doc comments state exactly what is abstracted.
-/

/-- Python `str` values are modelled as lists of characters so that every
string operation in the embedding is structurally recursive and
kernel-reducible. -/
abbrev PyStr := List Char

/-- Characters stripped by Python `str.strip()` (ASCII fragment of Python
whitespace: space, tab, newline, carriage return, vertical tab, form feed). -/
def isPySpace (c : Char) : Bool :=
  c == ' ' || c == '\t' || c == '\n' || c == '\r' || c.toNat == 11 || c.toNat == 12

/-- Python `str.strip()`: drop leading and trailing whitespace. -/
def pyStrip (s : PyStr) : PyStr :=
  ((s.dropWhile isPySpace).reverse.dropWhile isPySpace).reverse

/-- Python `s.startswith(pre)`. -/
def pyStartsWith : PyStr → PyStr → Bool
  | _, [] => true
  | [], _ :: _ => false
  | c :: cs, p :: ps => c == p && pyStartsWith cs ps

/-- Helper for `pySplitComma`: accumulates the current chunk in reverse. -/
def pySplitCommaAux (cur : PyStr) : PyStr → List PyStr
  | [] => [cur.reverse]
  | c :: rest =>
    if c == ',' then cur.reverse :: pySplitCommaAux [] rest
    else pySplitCommaAux (c :: cur) rest

/-- Python `s.split(',')`. -/
def pySplitComma (s : PyStr) : List PyStr :=
  pySplitCommaAux [] s

/-- ASCII fragment of Python `str.lower()`. -/
def lowerChar (c : Char) : Char :=
  if 65 ≤ c.toNat ∧ c.toNat ≤ 90 then Char.ofNat (c.toNat + 32) else c

/-- The characters after the last dot of a filename:
Python `filename.rsplit('.', 1)[1]` when a dot is present. -/
def afterLastDot (s : PyStr) : PyStr :=
  ((s.reverse.takeWhile (fun c => c != '.')).reverse)

/-- The lower-cased extension of a filename, when it contains a dot. -/
def extOf (s : PyStr) : Option PyStr :=
  if s.contains '.' then some ((afterLastDot s).map lowerChar) else none

/-- Image formats the modelled decoder can recognise.  Pillow recognises many
more; it is enough that the model contains the three allowed formats plus
formats outside the allowed set (bmp, webp). -/
inductive ImgFormat where
  | png
  | jpeg
  | gif
  | bmp
  | webp
deriving DecidableEq, Repr

/-- Pillow's `img.format.lower()` for the modelled formats. -/
def formatName : ImgFormat → PyStr
  | .png => "png".toList
  | .jpeg => "jpeg".toList
  | .gif => "gif".toList
  | .bmp => "bmp".toList
  | .webp => "webp".toList

/-- Pillow colour modes relevant to the code (`RGB`, `L`) together with the
other modes Pillow can produce, so that the mode-normalisation branches of the
source are not vacuous. -/
inductive Mode where
  | RGB
  | L
  | P
  | LA
  | RGBA
  | CMYK
deriving DecidableEq, Repr

/-- An in-memory decoded raster image as Pillow exposes it to the code:
a format, pixel dimensions and a colour mode. -/
structure PILImage where
  format : ImgFormat
  width : Nat
  height : Nat
  mode : Mode
deriving DecidableEq, Repr

/-- Big-endian 32-bit read at offset `i` (missing bytes read as 0). -/
def be32 (b : List Nat) (i : Nat) : Nat :=
  ((b.getD i 0 * 256 + b.getD (i + 1) 0) * 256 + b.getD (i + 2) 0) * 256 + b.getD (i + 3) 0

/-- Little-endian 16-bit read at offset `i`. -/
def le16 (b : List Nat) (i : Nat) : Nat :=
  b.getD i 0 + 256 * b.getD (i + 1) 0

/-- Little-endian 32-bit read at offset `i`. -/
def le32 (b : List Nat) (i : Nat) : Nat :=
  b.getD i 0 + 256 * (b.getD (i + 1) 0 + 256 * (b.getD (i + 2) 0 + 256 * b.getD (i + 3) 0))

/-- The eight PNG signature bytes. -/
def pngSig : List Nat := [137, 80, 78, 71, 13, 10, 26, 10]

/-- Modelled from Pillow's PNG plugin: a stream parses when it carries the PNG
signature followed by an IHDR chunk with positive dimensions and a legal
colour type.  Chunk CRCs and the pixel data, which Pillow's `verify` also
inspects, are abstracted away. -/
def parsePNG (b : List Nat) : Option PILImage :=
  if 33 ≤ b.length ∧ (b.drop 12).take 4 = [73, 72, 68, 82] then
    let w := be32 b 16
    let h := be32 b 20
    if 0 < w ∧ 0 < h then
      match b.getD 25 0 with
      | 0 => some ⟨.png, w, h, .L⟩
      | 2 => some ⟨.png, w, h, .RGB⟩
      | 3 => some ⟨.png, w, h, .P⟩
      | 4 => some ⟨.png, w, h, .LA⟩
      | 6 => some ⟨.png, w, h, .RGBA⟩
      | _ => none
    else none
  else none

/-- Modelled from Pillow's GIF plugin: `GIF87a`/`GIF89a` header with a
logical-screen descriptor carrying positive dimensions; GIF images open in
palette mode `P`. -/
def parseGIF (b : List Nat) : Option PILImage :=
  if 13 ≤ b.length then
    let w := le16 b 6
    let h := le16 b 8
    if 0 < w ∧ 0 < h then some ⟨.gif, w, h, .P⟩ else none
  else none

/-- Modelled from Pillow's JPEG plugin: walk the marker segments after the
`FF D8` start-of-image until a start-of-frame marker gives the dimensions and
component count (1 component opens as `L`, 4 as `CMYK`, otherwise `RGB`). -/
def jpegScan : Nat → List Nat → Option PILImage
  | 0, _ => none
  | fuel + 1, 255 :: m :: rest =>
    if m == 192 || m == 193 || m == 194 then
      match rest with
      | _ :: _ :: _ :: h1 :: h2 :: w1 :: w2 :: nc :: _ =>
        let w := w1 * 256 + w2
        let h := h1 * 256 + h2
        if 0 < w ∧ 0 < h then
          some ⟨.jpeg, w, h, if nc = 1 then .L else if nc = 4 then .CMYK else .RGB⟩
        else none
      | _ => none
    else
      let len := (rest.getD 0 0) * 256 + rest.getD 1 0
      if len < 2 then none
      else jpegScan fuel (rest.drop len)
  | _ + 1, _ => none

/-- Modelled JPEG parse: signature `FF D8 FF` then a start-of-frame scan. -/
def parseJPEG (b : List Nat) : Option PILImage :=
  jpegScan (b.length + 1) (b.drop 2)

/-- Modelled from Pillow's BMP plugin: `BM` header with a BITMAPINFOHEADER
carrying positive dimensions; simple BMPs open as `RGB`. -/
def parseBMP (b : List Nat) : Option PILImage :=
  if 26 ≤ b.length then
    let w := le32 b 18
    let h := le32 b 22
    if 0 < w ∧ 0 < h then some ⟨.bmp, w, h, .RGB⟩ else none
  else none

/-- Modelled from Pillow: `Image.open` sniffs the magic bytes and parses the
header; `img.verify()` and a second `Image.open` over the same bytes succeed
exactly when this parse succeeds.  A `none` result models the
`UnidentifiedImageError`/`SyntaxError` Pillow raises on unrecognised or
malformed streams. -/
def decodeImage (b : List Nat) : Option PILImage :=
  if b.take 8 = pngSig then parsePNG b
  else if b.take 6 = [71, 73, 70, 56, 55, 97] ∨ b.take 6 = [71, 73, 70, 56, 57, 97] then parseGIF b
  else if b.take 3 = [255, 216, 255] then parseJPEG b
  else if b.take 2 = [66, 77] then parseBMP b
  else none

/-- Value of a base64 alphabet character, `none` for every other character. -/
def b64Val (c : Char) : Option Nat :=
  let n := c.toNat
  if 65 ≤ n ∧ n ≤ 90 then some (n - 65)
  else if 97 ≤ n ∧ n ≤ 122 then some (n - 71)
  else if 48 ≤ n ∧ n ≤ 57 then some (n + 4)
  else if n = 43 then some 62
  else if n = 47 then some 63
  else none

/-- Modelled from CPython `binascii.a2b_base64` in its default lenient mode
(`base64.b64decode(s)` with `validate=False`): characters outside the alphabet
are discarded; an `=` is ignored before two data characters of a quantum and
terminates decoding once a quantum is completed by padding; reaching the end
of input with a partial quantum raises (`none`). -/
def a2bBase64 (quadPos leftchar pads : Nat) (out : List Nat) : PyStr → Option (List Nat)
  | [] => if quadPos = 0 then some out else none
  | c :: rest =>
    if c == '=' then
      if 2 ≤ quadPos then
        if 4 ≤ quadPos + pads + 1 then some out
        else a2bBase64 quadPos leftchar (pads + 1) out rest
      else a2bBase64 quadPos leftchar pads out rest
    else
      match b64Val c with
      | none => a2bBase64 quadPos leftchar pads out rest
      | some v =>
        match quadPos with
        | 0 => a2bBase64 1 v 0 out rest
        | 1 => a2bBase64 2 (v % 16) 0 (out ++ [leftchar * 4 + v / 16]) rest
        | 2 => a2bBase64 3 (v % 4) 0 (out ++ [leftchar * 16 + v / 4]) rest
        | _ => a2bBase64 0 0 0 (out ++ [leftchar * 64 + v]) rest

/-- Modelled from `base64.b64decode` on a `str` argument: the string is first
ASCII-encoded (non-ASCII raises, hence `none`), then fed to the lenient
`a2b_base64`. -/
def b64decode (s : PyStr) : Option (List Nat) :=
  if s.all (fun c => c.toNat ≤ 127) then a2bBase64 0 0 0 [] s else none

/-- Modelled from Pillow `Image.thumbnail((800, 800), LANCZOS)` as called at
src/app.py lines 69-71 and 123-125, with exact rational arithmetic in place
of float division: images already inside the 800 by 800 box are untouched;
otherwise the size is scaled down preserving the aspect ratio, the rounded
dimension choosing between floor and ceiling by closeness to the true aspect
and never dropping below 1. -/
def thumbnailDims (w h : Nat) : Nat × Nat :=
  if w ≤ 800 ∧ h ≤ 800 then (w, h)
  else if w ≤ h then
    let f := 800 * w / h
    let c := (800 * w + h - 1) / h
    let n := if 800 * w - f * h ≤ c * h - 800 * w then f else c
    (max n 1, 800)
  else
    let f := 800 * h / w
    let c := (800 * h + w - 1) / w
    let n :=
      if f = 0 then f
      else if (800 * h - w * f) * c ≤ (w * c - 800 * h) * f then f else c
    (800, max n 1)

/-- An uploaded file as the Flask/Werkzeug `FileStorage` object exposes it to
the code: the declared filename, the raw bytes, and the current stream
position moved by `read`/`seek`. -/
structure UploadFile where
  filename : PyStr
  data : List Nat
  pos : Nat
deriving DecidableEq, Repr

/-- Embeds `allowed_file` (src/app.py lines 85-87): the filename contains a
dot and the lower-cased text after the last dot is one of png, jpg, jpeg,
gif. -/
def allowed_file (filename : PyStr) : Bool :=
  filename.contains '.' &&
    (["png".toList, "jpg".toList, "jpeg".toList, "gif".toList]).contains
      ((afterLastDot filename).map lowerChar)

/-- Embeds `validate_image_file` (src/app.py lines 24-57).  The result is the
`(bool, message)` pair together with the file in its final stream state; the
function performs no writes, which is visible in its type.  Pillow's
`verify` over the read bytes and the re-open over the stream are both the
modelled `decodeImage`. -/
def validate_image_file (file : UploadFile) : (Bool × PyStr) × UploadFile :=
  if file.filename.isEmpty then ((false, "No file provided".toList), file)
  else if !allowed_file file.filename then
    ((false, "Invalid file type. Only PNG, JPG, and GIF allowed".toList), file)
  else
    let content := file.data.drop file.pos
    match decodeImage content with
    | none => ((false, "File is not a valid image".toList), ⟨file.filename, file.data, 0⟩)
    | some _ =>
      match decodeImage file.data with
      | none => ((false, "File is not a valid image".toList), ⟨file.filename, file.data, 0⟩)
      | some img =>
        if !(["png".toList, "jpeg".toList, "gif".toList]).contains (formatName img.format) then
          ((false, "File format not supported".toList),
            ⟨file.filename, file.data, file.data.length⟩)
        else if 5 * 1024 * 1024 < content.length then
          ((false, "File too large. Maximum size is 5MB".toList),
            ⟨file.filename, file.data, file.data.length⟩)
        else ((true, "Valid image".toList), ⟨file.filename, file.data, 0⟩)

/-- A file written to the upload directory: its generated name and the image
that was saved into it (always re-encoded as PNG by the code). -/
structure SavedFile where
  name : PyStr
  img : PILImage
deriving DecidableEq, Repr

/-- Embeds `sanitize_and_process_image` (src/app.py lines 59-83).  `fresh` is
the `uuid.uuid4()` token, `saveOk` tells whether `image.save` succeeds.  The
result pairs the code's `(filename, error)` tuple with the list of files
written to the upload folder.  The save-failure message abstracts the
interpolated `str(e)`. -/
def sanitize_and_process_image (file : UploadFile) (fresh : PyStr) (saveOk : Bool) :
    (Option PyStr × Option PyStr) × List SavedFile :=
  match decodeImage (file.data.drop file.pos) with
  | none => ((none, some "Error processing image: cannot identify image file".toList), [])
  | some img =>
    let mode := if img.mode ≠ .RGB ∧ img.mode ≠ .L then Mode.RGB else img.mode
    let wh := thumbnailDims img.width img.height
    let fn := fresh ++ ".png".toList
    if saveOk then ((some fn, none), [⟨fn, ⟨.png, wh.1, wh.2, mode⟩⟩])
    else ((none, some "Error processing image: save failed".toList), [])

/-- Embeds `process_canvas_drawing` (src/app.py lines 89-133).  The branch for
a payload without a comma models the `IndexError` of `split(',')[1]` being
caught by the enclosing handler: `str(IndexError(...))` is
`list index out of range`.  The save-failure message abstracts the
interpolated `str(e)`. -/
def process_canvas_drawing (canvas_data fresh : PyStr) (saveOk : Bool) :
    (Option PyStr × Option PyStr) × List SavedFile :=
  if canvas_data.isEmpty || !pyStartsWith canvas_data "data:image".toList then
    ((none, some "Invalid canvas data".toList), [])
  else
    match (pySplitComma canvas_data).get? 1 with
    | none => ((none, some "Error processing canvas: list index out of range".toList), [])
    | some body =>
      match b64decode body with
      | none => ((none, some "Invalid base64 data".toList), [])
      | some bytes =>
        match decodeImage bytes with
        | none => ((none, some "Canvas data is not a valid image".toList), [])
        | some img =>
          let mode := if img.mode ≠ .RGB then Mode.RGB else img.mode
          let fn := fresh ++ ".png".toList
          let wh := thumbnailDims img.width img.height
          if saveOk then ((some fn, none), [⟨fn, ⟨.png, wh.1, wh.2, mode⟩⟩])
          else ((none, some "Error processing canvas: save failed".toList), [])

/-- A row of the `submissions` table.  `none` is SQL NULL; the Python empty
string is `some []`, which is distinct from NULL. -/
structure Row where
  text_content : Option PyStr
  doodle_filename : Option PyStr
  submission_type : PyStr
deriving DecidableEq, Repr

/-- Python truthiness of an optional string: `None` and the empty string are
falsy. -/
def pyTruthy : Option PyStr → Bool
  | none => false
  | some s => !s.isEmpty

/-- Outcome of `add_submission`: a row is inserted, or the function returns
`None` without inserting (both arguments falsy), or the sqlite
connection/insert raises. -/
inductive DbResult where
  | inserted (row : Row)
  | invalid
  | raised
deriving DecidableEq, Repr

/-- Embeds `add_submission` (src/database.py lines 31-55).  `dbOk` models
whether the sqlite connect/execute/commit sequence succeeds; on failure the
exception propagates to the caller (`raised`) and nothing is inserted.  The
`submission_type` is computed from Python truthiness of the two arguments. -/
def add_submission (dbOk : Bool) (text_content doodle_filename : Option PyStr) : DbResult :=
  if !dbOk then .raised
  else if pyTruthy text_content && pyTruthy doodle_filename then
    .inserted ⟨text_content, doodle_filename, "both".toList⟩
  else if pyTruthy text_content then
    .inserted ⟨text_content, doodle_filename, "text".toList⟩
  else if pyTruthy doodle_filename then
    .inserted ⟨text_content, doodle_filename, "doodle".toList⟩
  else .invalid

/-- The per-request oracles of the intake endpoint: the `uuid4` token used
for the stored filename, whether `image.save` succeeds, and whether the
sqlite insert succeeds. -/
structure Env where
  fresh : PyStr
  saveOk : Bool
  dbOk : Bool
deriving DecidableEq, Repr

/-- The form data of one intake request: `text_content` (absent fields arrive
as the empty string through `form.get('text_content', '')`), the optional
`canvas_data` string and the optional uploaded file. -/
structure IntakeRequest where
  text_content : PyStr
  canvas_data : Option PyStr
  doodle_file : Option UploadFile
deriving DecidableEq, Repr

/-- Observable outcome of one intake request: the HTTP status, the error
message if any, the files written to the upload folder and the rows inserted
into the submissions table. -/
structure SubmitOutcome where
  status : Nat
  error : Option PyStr
  writes : List SavedFile
  rows : List Row
deriving DecidableEq, Repr

/-- Embeds the tail of `submit_content` (src/app.py lines 211-235): the
must-have-text-or-image check, the text re-strip/truncate (note that a blank
`text_content` skips the `if text_content:` block and stays the empty string
rather than becoming `None`), the `add_submission` call and the response.
`ws` carries the files already written by the image phase. -/
def finishSubmit (env : Env) (text0 : PyStr) (doodle : Option PyStr) (ws : List SavedFile) :
    SubmitOutcome :=
  if text0.isEmpty && doodle.isNone then
    ⟨400, some "Must provide either text or image".toList, ws, []⟩
  else
    let text1 : Option PyStr :=
      if !text0.isEmpty then
        let t := (pyStrip text0).take 2000
        if t.isEmpty then none else some t
      else some text0
    match add_submission env.dbOk text1 doodle with
    | .inserted row => ⟨200, none, ws, [row]⟩
    | .invalid => ⟨500, some "Failed to save submission".toList, ws, []⟩
    | .raised => ⟨500, some "Something went wrong".toList, ws, []⟩

/-- Embeds `submit_content` (src/app.py lines 175-239).  `form.get` defaults
make an absent `canvas_data` behave like the empty string and an absent file
like one with an empty filename, matching Python truthiness of `None`.  A
raised sqlite error is caught by the endpoint's outer handler and mapped to
the 500 response, with any already-written file left in place. -/
def submit_content (env : Env) (req : IntakeRequest) : SubmitOutcome :=
  let text0 := pyStrip req.text_content
  let canvas := req.canvas_data.getD []
  let cActive := !canvas.isEmpty && canvas != "null".toList
  let f := req.doodle_file.getD ⟨[], [], 0⟩
  let fActive := !f.filename.isEmpty
  if cActive && fActive then
    ⟨400, some "Cannot submit both drawing and file upload. Choose one.".toList, [], []⟩
  else if cActive then
    let r := process_canvas_drawing canvas env.fresh env.saveOk
    match r.1.2 with
    | some e => ⟨400, some e, r.2, []⟩
    | none => finishSubmit env text0 r.1.1 r.2
  else if fActive then
    let v := validate_image_file f
    if !v.1.1 then ⟨400, some v.1.2, [], []⟩
    else
      let r := sanitize_and_process_image v.2 env.fresh env.saveOk
      match r.1.2 with
      | some e => ⟨400, some e, r.2, []⟩
      | none => finishSubmit env text0 r.1.1 r.2
  else finishSubmit env text0 none []

/-- Embeds `ORDER BY RANDOM()` of `get_random_submission` (src/database.py
lines 57-80): each row is tagged with a fresh random key and the rows are
read back in key order.  The randomness is idealised as a uniformly random
permutation `p` of the row indices (sqlite draws 64-bit keys per row, which
are distinct up to negligible collision probability). -/
def orderByRandom (rows : List Row) (p : Equiv.Perm (Fin rows.length)) : List Row :=
  List.ofFn fun k => rows.get (p.symm k)

/-- Embeds `get_random_submission` (src/database.py lines 57-80):
`fetchone()` of the randomly ordered rows, i.e. the head of the shuffled
list, `none` on an empty table. -/
def get_random_submission (rows : List Row) (p : Equiv.Perm (Fin rows.length)) : Option Row :=
  (orderByRandom rows p).head?

/-- The index of the row that `ORDER BY RANDOM() LIMIT 1` returns under the
shuffle `p`: the row whose key is the minimum. -/
def scryIndex {n : Nat} (hn : 0 < n) (p : Equiv.Perm (Fin n)) : Fin n :=
  p.symm ⟨0, hn⟩

/-- The claim's notion of an extension matching a decoded format: `png` for
PNG, `jpg`/`jpeg` for JPEG, `gif` for GIF. -/
def extMatchesFormat (ext : PyStr) (fmt : ImgFormat) : Bool :=
  match fmt with
  | .png => ext == "png".toList
  | .jpeg => ext == "jpg".toList || ext == "jpeg".toList
  | .gif => ext == "gif".toList
  | .bmp => false
  | .webp => false

/-- A minimal 1 by 1 grayscale (colour type 0) PNG stream for the modelled
decoder. -/
def pngBytesL : List Nat :=
  [137, 80, 78, 71, 13, 10, 26, 10,
   0, 0, 0, 13, 73, 72, 68, 82,
   0, 0, 0, 1, 0, 0, 0, 1,
   8, 0, 0, 0, 0, 0, 0, 0, 0]

/-- A minimal 1 by 1 truecolour (colour type 2) PNG stream for the modelled
decoder. -/
def pngBytesRGB : List Nat :=
  [137, 80, 78, 71, 13, 10, 26, 10,
   0, 0, 0, 13, 73, 72, 68, 82,
   0, 0, 0, 1, 0, 0, 0, 1,
   8, 2, 0, 0, 0, 0, 0, 0, 0]

/-- A minimal 1 by 1 GIF89a stream for the modelled decoder. -/
def gifBytes : List Nat := [71, 73, 70, 56, 57, 97, 1, 0, 1, 0, 0, 0, 0]

/-- A minimal 1 by 1 BMP stream for the modelled decoder: a decodable image
whose format is outside the allowed set. -/
def bmpBytes : List Nat :=
  [66, 77, 0, 0, 0, 0, 0, 0, 0, 0, 0, 0, 0, 0, 0, 0, 0, 0, 1, 0, 0, 0, 1, 0, 0, 0]

/-- A canvas data-URL payload whose base64 body decodes to `pngBytesL`. -/
def canvasPayloadL : PyStr :=
  "data:image/png;base64,iVBORw0KGgoAAAANSUhEUgAAAAEAAAABCAAAAAAAAAAA".toList

/-- Oracles for a request whose image save succeeds but whose sqlite insert
fails. -/
def envDbFail : Env := ⟨"f".toList, true, false⟩

/-- Oracles for a fully successful request. -/
def envOk : Env := ⟨"f".toList, true, true⟩

/-- An intake request with no text and a valid PNG upload. -/
def reqFilePng : IntakeRequest := ⟨[], none, some ⟨"a.png".toList, pngBytesRGB, 0⟩⟩

/-- An intake request with whitespace-only text and a valid PNG upload. -/
def reqBlankTextPng : IntakeRequest := ⟨"   ".toList, none, some ⟨"a.png".toList, pngBytesRGB, 0⟩⟩

/-- Two distinct rows used to exercise the random-selection model. -/
def rowsPair : List Row :=
  [⟨some "a".toList, none, "text".toList⟩, ⟨none, some "b".toList, "doodle".toList⟩]

/-- Splitting a comma-free string yields the single chunk accumulated so
far followed by the rest. -/
theorem pySplitCommaAux_no_comma (s : PyStr) (cur : PyStr) (h : s.contains ',' = false) :
    pySplitCommaAux cur s = [cur.reverse ++ s] := by
  induction s generalizing cur with
  | nil => simp [pySplitCommaAux]
  | cons c rest ih =>
    have h2 : (c == ',') = false ∧ rest.contains ',' = false := by
      rw [List.contains_cons] at h
      rcases Bool.or_eq_false_iff.mp h with ⟨ha, hb⟩
      refine ⟨?_, hb⟩
      cases hcc : c == ',' with
      | false => rfl
      | true => exact absurd (by rw [eq_of_beq hcc]; rfl) (by simp [ha] : ¬((',' == c) = true))
    rw [pySplitCommaAux, if_neg (by simp [h2.1])]
    rw [ih (c :: cur) h2.2]
    simp

/-- A string starting with the data-URL image marker is nonempty. -/
theorem pyStartsWith_dataImage_ne_nil (payload : PyStr)
    (hpre : pyStartsWith payload "data:image".toList = true) : payload.isEmpty = false := by
  cases payload with
  | nil => exact absurd hpre (by decide)
  | cons a l => rfl

/-- C10: a canvas payload that starts with the data-URL image marker but
contains no comma is rejected by `process_canvas_drawing` with the generic
processing-error reason — the `IndexError` raised by `split(',')[1]` is
caught by the enclosing handler, whose message interpolates
`list index out of range` — not the Invalid-canvas-data reason, and no file
is written and no exception escapes. -/
theorem C10_no_comma_generic_error (payload fresh : PyStr) (saveOk : Bool)
    (hpre : pyStartsWith payload "data:image".toList = true)
    (hcomma : payload.contains ',' = false) :
    process_canvas_drawing payload fresh saveOk =
      ((none, some "Error processing canvas: list index out of range".toList), []) := by
  have hne := pyStartsWith_dataImage_ne_nil payload hpre
  have hpre2 : pyStartsWith payload ['d', 'a', 't', 'a', ':', 'i', 'm', 'a', 'g', 'e'] = true := hpre
  have hsplit : (pySplitComma payload).get? 1 = none := by
    rw [pySplitComma, pySplitCommaAux_no_comma payload [] hcomma]
    rfl
  have hsplit2 : (pySplitComma payload)[1]? = none := by
    rw [pySplitComma, pySplitCommaAux_no_comma payload [] hcomma]
    rfl
  simp [process_canvas_drawing, hne, hpre2, hsplit, hsplit2]

/-- C10 witness: the concrete comma-free payload `data:image/png;base64`. -/
theorem C10_witness :
    pyStartsWith "data:image/png;base64".toList "data:image".toList = true
    ∧ ("data:image/png;base64".toList).contains ',' = false
    ∧ process_canvas_drawing "data:image/png;base64".toList "f".toList true =
        ((none, some "Error processing canvas: list index out of range".toList), []) :=
  ⟨by decide, by decide, C10_no_comma_generic_error _ _ true (by decide) (by decide)⟩

/-- C5 counterexample: a base64 body made only of characters outside the
alphabet is NOT rejected at the base64-decoding step — the lenient decoder
discards the invalid characters and yields the empty byte string — so the
rejection reason is the not-a-valid-image one, not the base64 one. -/
theorem C5_counterexample :
    process_canvas_drawing "data:image/png;base64,????".toList "f".toList true =
      ((none, some "Canvas data is not a valid image".toList), [])
    ∧ b64decode "????".toList = some [] := by decide

/-- C5 amended: when the base64 body (the piece after the first comma) does
fail to decode — which the lenient decoder does only for a partial final
quantum, that is bad padding after discarding, or non-ASCII input — the
rejection reason is the dedicated base64 one, distinct from the
not-an-image reason; a body that merely contains invalid ASCII characters
does not fail the decode step (see the counterexample). -/
theorem C5_decode_failure_reason (payload fresh body : PyStr) (saveOk : Bool)
    (hpre : pyStartsWith payload "data:image".toList = true)
    (hbody : (pySplitComma payload).get? 1 = some body)
    (hdec : b64decode body = none) :
    (process_canvas_drawing payload fresh saveOk).1 =
      (none, some "Invalid base64 data".toList)
    ∧ "Invalid base64 data".toList ≠ "Canvas data is not a valid image".toList := by
  refine ⟨?_, by decide⟩
  have hne := pyStartsWith_dataImage_ne_nil payload hpre
  have hpre2 : pyStartsWith payload ['d', 'a', 't', 'a', ':', 'i', 'm', 'a', 'g', 'e'] = true := hpre
  have hbody2 : (pySplitComma payload)[1]? = some body := by
    rw [← List.get?_eq_getElem?]
    exact hbody
  simp [process_canvas_drawing, hne, hpre2, hbody, hbody2, hdec]

/-- C5 witness: a body of five alphabet characters leaves a partial quantum,
so the decode raises and the base64 rejection reason is reported. -/
theorem C5_witness :
    (pySplitComma "data:image/png;base64,abcde".toList).get? 1 = some "abcde".toList
    ∧ b64decode "abcde".toList = none
    ∧ (process_canvas_drawing "data:image/png;base64,abcde".toList "f".toList true).1 =
        (none, some "Invalid base64 data".toList) :=
  ⟨by decide, by decide,
    (C5_decode_failure_reason "data:image/png;base64,abcde".toList "f".toList "abcde".toList true
      (by decide) (by decide) (by decide)).1⟩

/-- C1 counterexample: a genuine GIF stream declared with a `.png` filename —
decoded format gif, extension format png — passes `validate_image_file` with
the Valid-image result, so a decoded-format/extension mismatch is not
rejected. -/
theorem C1_counterexample :
    (validate_image_file ⟨"x.png".toList, gifBytes, 0⟩).1 = (true, "Valid image".toList)
    ∧ (decodeImage gifBytes).map PILImage.format = some ImgFormat.gif
    ∧ extOf "x.png".toList = some "png".toList
    ∧ formatName ImgFormat.gif ≠ "png".toList := by decide

/-- C1 amended: with a filename that passes the extension check and a stream
that decodes, `validate_image_file` rejects with the unsupported-format
reason exactly when the decoded format is outside the set png, jpeg, gif; it
never compares the decoded format against the extension, so a mismatch
inside the allowed set (such as a GIF renamed `.png`) is accepted. -/
theorem C1_decoded_format_check (file : UploadFile) (img : PILImage)
    (hpos : file.pos = 0)
    (hall : allowed_file file.filename = true)
    (hdec : decodeImage file.data = some img) :
    ((validate_image_file file).1 = (false, "File format not supported".toList) ↔
      (["png".toList, "jpeg".toList, "gif".toList]).contains (formatName img.format) = false) := by
  obtain ⟨fn, data, pos⟩ := file
  obtain ⟨fmt, w, h, mode⟩ := img
  dsimp only at hpos hall hdec ⊢
  subst hpos
  have hne : fn.isEmpty = false := by
    cases fn with
    | nil => exact absurd hall (by decide)
    | cons a l => rfl
  by_cases hsz : 5242880 < data.length <;>
    cases fmt <;>
      simp [validate_image_file, hne, hall, hdec, hsz, formatName]

/-- C1 witness: a decodable BMP stream declared as `.png` is rejected with
the unsupported-format reason. -/
theorem C1_witness :
    allowed_file "x.png".toList = true
    ∧ decodeImage bmpBytes = some ⟨ImgFormat.bmp, 1, 1, Mode.RGB⟩
    ∧ (validate_image_file ⟨"x.png".toList, bmpBytes, 0⟩).1 =
        (false, "File format not supported".toList) :=
  ⟨by decide, by decide,
    (C1_decoded_format_check ⟨"x.png".toList, bmpBytes, 0⟩ ⟨ImgFormat.bmp, 1, 1, Mode.RGB⟩ rfl
      (by decide) (by decide)).mpr (by decide)⟩

/-- C6: every file the canvas path stores has full-colour RGB mode (no
grayscale passthrough), while the file-upload sanitize path preserves a
grayscale `L` input and converts every mode other than RGB and L to RGB. -/
theorem C6_mode_normalisation :
    (∀ payload fresh saveOk sf, sf ∈ (process_canvas_drawing payload fresh saveOk).2 →
       sf.img.mode = Mode.RGB)
    ∧ (∀ file fresh saveOk img sf,
        decodeImage (file.data.drop file.pos) = some img →
        sf ∈ (sanitize_and_process_image file fresh saveOk).2 →
        sf.img.mode = if img.mode = Mode.RGB ∨ img.mode = Mode.L then img.mode else Mode.RGB) := by
  constructor
  · intro payload fresh saveOk sf h
    rw [process_canvas_drawing] at h
    split at h
    · simp at h
    · split at h
      · simp at h
      · split at h
        · simp at h
        · split at h
          · simp at h
          · dsimp only at h
            split at h
            · rename_i img _ _ _
              simp only [List.mem_singleton] at h
              subst h
              dsimp only
              split
              · rfl
              · rename_i hmode
                exact not_not.mp (by simpa using hmode)
            · simp at h
  · intro file fresh saveOk img sf hdec h
    rw [sanitize_and_process_image] at h
    rw [hdec] at h
    dsimp only at h
    split at h
    · simp only [List.mem_singleton] at h
      subst h
      dsimp only
      cases hm : img.mode <;> simp [hm]
    · simp at h

/-- C6 witness: the canvas path stores the grayscale test PNG as RGB, while
the sanitize path stores the same grayscale PNG with its L mode preserved. -/
theorem C6_witness :
    (⟨"f.png".toList, ⟨ImgFormat.png, 1, 1, Mode.RGB⟩⟩ : SavedFile) ∈
        (process_canvas_drawing canvasPayloadL "f".toList true).2
    ∧ (⟨"f.png".toList, ⟨ImgFormat.png, 1, 1, Mode.RGB⟩⟩ : SavedFile).img.mode = Mode.RGB
    ∧ decodeImage ((⟨"a.png".toList, pngBytesL, 0⟩ : UploadFile).data.drop
        (⟨"a.png".toList, pngBytesL, 0⟩ : UploadFile).pos) = some ⟨ImgFormat.png, 1, 1, Mode.L⟩
    ∧ (⟨"f.png".toList, ⟨ImgFormat.png, 1, 1, Mode.L⟩⟩ : SavedFile).img.mode =
        (if (⟨ImgFormat.png, 1, 1, Mode.L⟩ : PILImage).mode = Mode.RGB ∨
            (⟨ImgFormat.png, 1, 1, Mode.L⟩ : PILImage).mode = Mode.L
         then (⟨ImgFormat.png, 1, 1, Mode.L⟩ : PILImage).mode else Mode.RGB) :=
  ⟨by decide,
   C6_mode_normalisation.1 canvasPayloadL "f".toList true
     ⟨"f.png".toList, ⟨ImgFormat.png, 1, 1, Mode.RGB⟩⟩ (by decide),
   by decide,
   C6_mode_normalisation.2 ⟨"a.png".toList, pngBytesL, 0⟩ "f".toList true
     ⟨ImgFormat.png, 1, 1, Mode.L⟩ ⟨"f.png".toList, ⟨ImgFormat.png, 1, 1, Mode.L⟩⟩
     (by decide) (by decide)⟩

/-- Every row `add_submission` actually inserts carries exactly the two
arguments it was given. -/
theorem add_submission_fields (dbOk : Bool) (t d : Option PyStr) (row : Row)
    (h : add_submission dbOk t d = .inserted row) :
    row.text_content = t ∧ row.doodle_filename = d := by
  unfold add_submission at h
  split_ifs at h <;> simp_all <;> simp [← h]

/-- `finishSubmit` hands the already-written files through unchanged and only
inserts rows whose `doodle_filename` is the filename produced by the image
phase. -/
theorem finishSubmit_spec (env : Env) (text0 : PyStr) (doodle : Option PyStr)
    (ws : List SavedFile) :
    (finishSubmit env text0 doodle ws).writes = ws
    ∧ ∀ row ∈ (finishSubmit env text0 doodle ws).rows, row.doodle_filename = doodle := by
  unfold finishSubmit
  split
  · exact ⟨rfl, by simp⟩
  · dsimp only
    split
    · rename_i row0 heq
      refine ⟨rfl, ?_⟩
      intro row hrow
      simp only [List.mem_singleton] at hrow
      subst hrow
      exact (add_submission_fields _ _ _ _ heq).2
    · exact ⟨rfl, by simp⟩
    · exact ⟨rfl, by simp⟩

/-- A successful run of the canvas path returns the fresh `.png` filename and
writes exactly that file. -/
theorem process_canvas_success (canvas fresh : PyStr) (saveOk : Bool) :
    (process_canvas_drawing canvas fresh saveOk).1.2 = none →
    (process_canvas_drawing canvas fresh saveOk).1.1 = some (fresh ++ ".png".toList)
    ∧ (process_canvas_drawing canvas fresh saveOk).2.map SavedFile.name =
        [fresh ++ ".png".toList] := by
  unfold process_canvas_drawing
  split
  · intro h; simp at h
  · split
    · intro h; simp at h
    · split
      · intro h; simp at h
      · split
        · intro h; simp at h
        · dsimp only
          split
          · intro _; exact ⟨rfl, rfl⟩
          · intro h; simp at h

/-- A successful run of the sanitize path returns the fresh `.png` filename
and writes exactly that file. -/
theorem sanitize_success (file : UploadFile) (fresh : PyStr) (saveOk : Bool) :
    (sanitize_and_process_image file fresh saveOk).1.2 = none →
    (sanitize_and_process_image file fresh saveOk).1.1 = some (fresh ++ ".png".toList)
    ∧ (sanitize_and_process_image file fresh saveOk).2.map SavedFile.name =
        [fresh ++ ".png".toList] := by
  unfold sanitize_and_process_image
  split
  · intro h; simp at h
  · dsimp only
    split
    · intro _; exact ⟨rfl, rfl⟩
    · intro h; simp at h

/-- C2 amended: the first half of the claim holds — every inserted Submission
row that references an image file references one that was successfully
written during the same request (the write precedes the insert).  The second
half fails: see the counterexample, where the insert fails after the write
and the file is left behind. -/
theorem C2_rows_reference_written_files (env : Env) (req : IntakeRequest) (row : Row)
    (fn : PyStr) (hdf : row.doodle_filename = some fn) :
    row ∈ (submit_content env req).rows →
    fn ∈ (submit_content env req).writes.map SavedFile.name := by
  unfold submit_content
  dsimp only
  split
  · intro h; simp at h
  · split
    · split
      · intro h; simp at h
      · rename_i heq
        intro h
        obtain ⟨h1, h2⟩ := process_canvas_success _ _ _ heq
        have h3 := (finishSubmit_spec env _ _ _).2 row h
        rw [hdf, h1] at h3
        rw [(finishSubmit_spec env _ _ _).1, h2]
        simp only [Option.some.injEq] at h3
        simp [h3]
    · split
      · split
        · intro h; simp at h
        · split
          · intro h; simp at h
          · rename_i heq
            intro h
            obtain ⟨h1, h2⟩ := sanitize_success _ _ _ heq
            have h3 := (finishSubmit_spec env _ _ _).2 row h
            rw [hdf, h1] at h3
            rw [(finishSubmit_spec env _ _ _).1, h2]
            simp only [Option.some.injEq] at h3
            simp [h3]
      · intro h
        have h3 := (finishSubmit_spec env _ none _).2 row h
        rw [hdf] at h3
        cases h3

/-- C2 counterexample: a valid PNG upload whose image save succeeds but whose
sqlite insert fails ends with the file written to the upload folder and no
row inserted — the failed insert does leave a file behind. -/
theorem C2_counterexample :
    (submit_content envDbFail reqFilePng).writes.map SavedFile.name = ["f.png".toList]
    ∧ (submit_content envDbFail reqFilePng).rows = []
    ∧ (submit_content envDbFail reqFilePng).status = 500 := by decide

/-- C2 witness: on a fully successful request the inserted row's filename is
among the written files. -/
theorem C2_witness :
    (⟨some [], some "f.png".toList, "doodle".toList⟩ : Row) ∈
        (submit_content envOk reqFilePng).rows
    ∧ "f.png".toList ∈ (submit_content envOk reqFilePng).writes.map SavedFile.name :=
  ⟨by decide,
    C2_rows_reference_written_files envOk reqFilePng
      ⟨some [], some "f.png".toList, "doodle".toList⟩ "f.png".toList rfl (by decide)⟩

/-- C4 counterexample: the intake request with blank text plus a valid image
stores a row whose `text_content` is the empty string — which is non-null —
while `submission_type` is `doodle`: both fields are non-null yet the kind is
not `both`, so the kind does not match the non-null pattern of the fields. -/
theorem C4_counterexample :
    (submit_content envOk reqFilePng).rows =
      [⟨some [], some "f.png".toList, "doodle".toList⟩]
    ∧ (some ([] : PyStr) ≠ (none : Option PyStr))
    ∧ ("doodle".toList ≠ ("both" : String).toList) := by decide

/-- C4 amended: every row `add_submission` inserts has at least one field
that is non-null — indeed at least one that is Python-truthy, non-null and
non-empty — and `submission_type` is exactly the function of which of the two
fields are truthy; the code decides presence by Python truthiness, so an
empty string (non-null) counts as absent, which is the only deviation from
the claim as written. -/
theorem C4_kind_matches_truthiness (dbOk : Bool) (t d : Option PyStr) (row : Row)
    (h : add_submission dbOk t d = .inserted row) :
    (row.text_content ≠ none ∨ row.doodle_filename ≠ none)
    ∧ (pyTruthy row.text_content || pyTruthy row.doodle_filename) = true
    ∧ row.submission_type =
        (if pyTruthy row.text_content && pyTruthy row.doodle_filename then "both".toList
         else if pyTruthy row.text_content then "text".toList
         else "doodle".toList) := by
  unfold add_submission at h
  split_ifs at h with h1 h2 h3 h4
  all_goals cases h
  all_goals refine ⟨?_, ?_, ?_⟩
  all_goals try simp_all [pyTruthy]
  all_goals first
    | (left; rintro rfl; simp_all [pyTruthy]; done)
    | (right; rintro rfl; simp_all [pyTruthy]; done)

/-- C4 witness: a text-only insert carries kind `text`, matching the
truthiness pattern. -/
theorem C4_witness :
    add_submission true (some "hi".toList) none =
      .inserted ⟨some "hi".toList, none, "text".toList⟩
    ∧ (⟨some "hi".toList, none, "text".toList⟩ : Row).submission_type =
        (if pyTruthy (⟨some "hi".toList, none, "text".toList⟩ : Row).text_content &&
            pyTruthy (⟨some "hi".toList, none, "text".toList⟩ : Row).doodle_filename
         then "both".toList
         else if pyTruthy (⟨some "hi".toList, none, "text".toList⟩ : Row).text_content
         then "text".toList
         else "doodle".toList) :=
  ⟨by decide,
    (C4_kind_matches_truthiness true (some "hi".toList) none
      ⟨some "hi".toList, none, "text".toList⟩ (by decide)).2.2⟩

/-- C8: evaluation at the failing input — whitespace-only text submitted
together with a valid PNG upload.  The blank text is stripped to the empty
string at the top of the endpoint, skips the `if text_content:` nulling block
(whose only-whitespace branch is unreachable because the value was already
stripped), and is inserted as the empty string: the stored `text_content` is
`some []`, not SQL NULL as the claim requires. -/
theorem C8_blank_text_stored_as_empty_string :
    (submit_content envOk reqBlankTextPng).rows =
      [⟨some [], some "f.png".toList, "doodle".toList⟩]
    ∧ (some ([] : PyStr) ≠ (none : Option PyStr)) := by decide

/-- Floor-division bounds used for the thumbnail rounding analysis. -/
theorem floorDiv_bounds (a b : Nat) (hb : 0 < b) :
    (a / b) * b ≤ a ∧ a < (a / b) * b + b := by
  have h1 := Nat.div_add_mod a b
  have h2 := Nat.mod_lt a hb
  constructor
  · calc (a / b) * b = b * (a / b) := Nat.mul_comm _ _
      _ ≤ b * (a / b) + a % b := Nat.le_add_right _ _
      _ = a := h1
  · calc a = b * (a / b) + a % b := h1.symm
      _ < b * (a / b) + b := Nat.add_lt_add_left h2 _
      _ = (a / b) * b + b := by rw [Nat.mul_comm]

/-- Ceiling-division bounds used for the thumbnail rounding analysis. -/
theorem ceilDiv_bounds (a b : Nat) (hb : 0 < b) :
    a ≤ ((a + b - 1) / b) * b ∧ ((a + b - 1) / b) * b < a + b := by
  obtain ⟨h1, h2⟩ := floorDiv_bounds (a + b - 1) b hb
  set x := ((a + b - 1) / b) * b with hx
  omega

/-- C3: the dimension law of the thumbnail step shared by both storage paths
(src/app.py lines 69-71 and 123-125): an image already inside the 800 by 800
box is left unchanged (never upscaled, and neither dimension ever grows),
and an image with a dimension over 800 is scaled down so that both output
dimensions are at most 800 while the aspect ratio is preserved within
rounding — the cross products of the old and new sizes differ by at most one
rounding step of the larger input dimension. -/
theorem C3_dimension_law (w h : Nat) (hw : 1 ≤ w) (hh : 1 ≤ h) :
    ((w ≤ 800 ∧ h ≤ 800) → thumbnailDims w h = (w, h))
    ∧ (thumbnailDims w h).1 ≤ w ∧ (thumbnailDims w h).2 ≤ h
    ∧ ((800 < w ∨ 800 < h) →
        (thumbnailDims w h).1 ≤ 800 ∧ (thumbnailDims w h).2 ≤ 800
        ∧ (thumbnailDims w h).1 * h ≤ w * (thumbnailDims w h).2 + max w h
        ∧ w * (thumbnailDims w h).2 ≤ (thumbnailDims w h).1 * h + max w h) := by
  by_cases hsmall : w ≤ 800 ∧ h ≤ 800
  · rw [thumbnailDims, if_pos hsmall]
    exact ⟨fun _ => rfl, Nat.le_refl _, Nat.le_refl _, fun hbig => absurd hbig (by omega)⟩
  · rw [thumbnailDims, if_neg hsmall]
    by_cases hwh : w ≤ h
    · rw [if_pos hwh]
      dsimp only
      obtain ⟨hf1, hf2⟩ := floorDiv_bounds (800 * w) h (by omega)
      obtain ⟨hc1, hc2⟩ := ceilDiv_bounds (800 * w) h (by omega)
      set f := 800 * w / h with hfdef
      set c := (800 * w + h - 1) / h with hcdef
      set n := if 800 * w - f * h ≤ c * h - 800 * w then f else c with hndef
      have hh800 : 800 < h := by omega
      have hn12 : n = f ∨ n = c := by
        rw [hndef]
        split
        · exact Or.inl rfl
        · exact Or.inr rfl
      have hfw : f < w := by
        refine lt_of_mul_lt_mul_right ?_ (Nat.zero_le h)
        calc f * h ≤ 800 * w := hf1
          _ < h * w := (Nat.mul_lt_mul_right (by omega)).mpr hh800
          _ = w * h := Nat.mul_comm h w
      have hcw : c ≤ w := by
        have hx : c * h < (w + 1) * h := by
          calc c * h < 800 * w + h := hc2
            _ ≤ h * w + h := Nat.add_le_add_right (Nat.mul_le_mul_right w (by omega)) h
            _ = (w + 1) * h := by ring
        exact Nat.lt_succ_iff.mp (lt_of_mul_lt_mul_right hx (Nat.zero_le h))
      have hf800 : f ≤ 800 := by
        refine le_of_mul_le_mul_right ?_ (by omega : 0 < h)
        calc f * h ≤ 800 * w := hf1
          _ ≤ 800 * h := Nat.mul_le_mul_left 800 hwh
      have hc800 : c ≤ 800 := by
        have hx : c * h < (800 + 1) * h := by
          calc c * h < 800 * w + h := hc2
            _ ≤ 800 * h + h := Nat.add_le_add_right (Nat.mul_le_mul_left 800 hwh) h
            _ = (800 + 1) * h := by ring
        exact Nat.lt_succ_iff.mp (lt_of_mul_lt_mul_right hx (Nat.zero_le h))
      have hnw : n ≤ w := by
        rcases hn12 with hx | hx <;> rw [hx]
        · exact Nat.le_of_lt hfw
        · exact hcw
      have hn800 : n ≤ 800 := by
        rcases hn12 with hx | hx <;> rw [hx]
        · exact hf800
        · exact hc800
      have hmix : (max n 1) * h ≤ 800 * w + h ∧ 800 * w ≤ (max n 1) * h + h := by
        rcases Nat.eq_zero_or_pos n with hz | hp
        · have hlt : 800 * w < h := by
            rcases hn12 with hx | hx
            · have hf0 : f = 0 := by omega
              rw [hf0] at hf2
              simpa using hf2
            · have hc0 : c = 0 := by omega
              rw [hc0] at hc1
              simp at hc1
              omega
          rw [hz]
          constructor
          · calc (max 0 1) * h = h := by simp
              _ ≤ 800 * w + h := Nat.le_add_left _ _
          · calc 800 * w ≤ h := Nat.le_of_lt hlt
              _ ≤ (max 0 1) * h + h := by simp
        · rw [max_eq_left hp]
          rcases hn12 with hx | hx <;> rw [hx]
          · exact ⟨le_trans hf1 (Nat.le_add_right _ _), Nat.le_of_lt hf2⟩
          · exact ⟨Nat.le_of_lt hc2, le_trans hc1 (Nat.le_add_right _ _)⟩
      refine ⟨fun hx => absurd hx hsmall, max_le hnw hw, Nat.le_of_lt hh800,
        fun _ => ⟨max_le hn800 (by omega), Nat.le_refl _, ?_, ?_⟩⟩
      · calc (max n 1) * h ≤ 800 * w + h := hmix.1
          _ = w * 800 + max w h := by rw [Nat.mul_comm, max_eq_right hwh]
      · calc w * 800 = 800 * w := Nat.mul_comm w 800
          _ ≤ (max n 1) * h + h := hmix.2
          _ = (max n 1) * h + max w h := by rw [max_eq_right hwh]
    · rw [if_neg hwh]
      dsimp only
      obtain ⟨hf1, hf2⟩ := floorDiv_bounds (800 * h) w (by omega)
      obtain ⟨hc1, hc2⟩ := ceilDiv_bounds (800 * h) w (by omega)
      set f := 800 * h / w with hfdef
      set c := (800 * h + w - 1) / w with hcdef
      set n := if f = 0 then f
               else if (800 * h - w * f) * c ≤ (w * c - 800 * h) * f then f else c with hndef
      have hw800 : 800 < w := by omega
      have hhw : h < w := by omega
      have hn12 : n = f ∨ n = c := by
        rw [hndef]
        split
        · exact Or.inl rfl
        · split
          · exact Or.inl rfl
          · exact Or.inr rfl
      have hfh : f < h := by
        refine lt_of_mul_lt_mul_right ?_ (Nat.zero_le w)
        calc f * w ≤ 800 * h := hf1
          _ < w * h := (Nat.mul_lt_mul_right (by omega)).mpr hw800
          _ = h * w := Nat.mul_comm w h
      have hch : c ≤ h := by
        have hx : c * w < (h + 1) * w := by
          calc c * w < 800 * h + w := hc2
            _ ≤ w * h + w := Nat.add_le_add_right (Nat.mul_le_mul_right h (by omega)) w
            _ = (h + 1) * w := by ring
        exact Nat.lt_succ_iff.mp (lt_of_mul_lt_mul_right hx (Nat.zero_le w))
      have hf800 : f ≤ 800 := by
        refine le_of_mul_le_mul_right ?_ (by omega : 0 < w)
        calc f * w ≤ 800 * h := hf1
          _ ≤ 800 * w := Nat.mul_le_mul_left 800 (Nat.le_of_lt hhw)
      have hc800 : c ≤ 800 := by
        have hx : c * w < (800 + 1) * w := by
          calc c * w < 800 * h + w := hc2
            _ ≤ 800 * w + w := Nat.add_le_add_right (Nat.mul_le_mul_left 800 (Nat.le_of_lt hhw)) w
            _ = (800 + 1) * w := by ring
        exact Nat.lt_succ_iff.mp (lt_of_mul_lt_mul_right hx (Nat.zero_le w))
      have hnh : n ≤ h := by
        rcases hn12 with hx | hx <;> rw [hx]
        · exact Nat.le_of_lt hfh
        · exact hch
      have hn800 : n ≤ 800 := by
        rcases hn12 with hx | hx <;> rw [hx]
        · exact hf800
        · exact hc800
      have hmix : (max n 1) * w ≤ 800 * h + w ∧ 800 * h ≤ (max n 1) * w + w := by
        rcases Nat.eq_zero_or_pos n with hz | hp
        · have hlt : 800 * h < w := by
            rcases hn12 with hx | hx
            · have hf0 : f = 0 := by omega
              rw [hf0] at hf2
              simpa using hf2
            · have hc0 : c = 0 := by omega
              rw [hc0] at hc1
              simp at hc1
              omega
          rw [hz]
          constructor
          · calc (max 0 1) * w = w := by simp
              _ ≤ 800 * h + w := Nat.le_add_left _ _
          · calc 800 * h ≤ w := Nat.le_of_lt hlt
              _ ≤ (max 0 1) * w + w := by simp
        · rw [max_eq_left hp]
          rcases hn12 with hx | hx <;> rw [hx]
          · exact ⟨le_trans hf1 (Nat.le_add_right _ _), Nat.le_of_lt hf2⟩
          · exact ⟨Nat.le_of_lt hc2, le_trans hc1 (Nat.le_add_right _ _)⟩
      refine ⟨fun hx => absurd hx hsmall, Nat.le_of_lt hw800, max_le hnh hh,
        fun _ => ⟨Nat.le_refl _, max_le hn800 (by omega), ?_, ?_⟩⟩
      · calc 800 * h ≤ (max n 1) * w + w := hmix.2
          _ = w * (max n 1) + max w h := by
            rw [Nat.mul_comm, max_eq_left (Nat.le_of_lt hhw)]
      · calc w * (max n 1) = (max n 1) * w := Nat.mul_comm w _
          _ ≤ 800 * h + w := hmix.1
          _ = 800 * h + max w h := by rw [max_eq_left (Nat.le_of_lt hhw)]

/-- C3 witness: a 1600 by 1200 input is stored as 800 by 600 — bounded,
downscaled and aspect-preserving. -/
theorem C3_witness :
    1 ≤ 1600 ∧ 1 ≤ 1200
    ∧ (((1600 ≤ 800 ∧ 1200 ≤ 800) → thumbnailDims 1600 1200 = (1600, 1200))
      ∧ (thumbnailDims 1600 1200).1 ≤ 1600 ∧ (thumbnailDims 1600 1200).2 ≤ 1200
      ∧ ((800 < 1600 ∨ 800 < 1200) →
          (thumbnailDims 1600 1200).1 ≤ 800 ∧ (thumbnailDims 1600 1200).2 ≤ 800
          ∧ (thumbnailDims 1600 1200).1 * 1200 ≤
              1600 * (thumbnailDims 1600 1200).2 + max 1600 1200
          ∧ 1600 * (thumbnailDims 1600 1200).2 ≤
              (thumbnailDims 1600 1200).1 * 1200 + max 1600 1200)) :=
  ⟨by decide, by decide, C3_dimension_law 1600 1200 (by decide) (by decide)⟩

/-- C9: a stream that decodes as one of the allowed formats, carries at most
5 MB, and is declared with an extension matching its decoded format is
accepted by `validate_image_file`, which performs no writes (its type has no
write effect) and returns the file with its stream position reset to the
start. -/
theorem C9_valid_upload_accepted (file : UploadFile) (img : PILImage) (ext : PyStr)
    (hpos : file.pos = 0)
    (hdec : decodeImage file.data = some img)
    (hext : extOf file.filename = some ext)
    (hmatch : extMatchesFormat ext img.format = true)
    (hsize : file.data.length ≤ 5 * 1024 * 1024) :
    validate_image_file file = ((true, "Valid image".toList), ⟨file.filename, file.data, 0⟩) := by
  obtain ⟨fn, data, pos⟩ := file
  obtain ⟨fmt, w, h, mode⟩ := img
  dsimp only at hpos hdec hext hmatch hsize ⊢
  subst hpos
  have hdotext : fn.contains '.' = true ∧ (afterLastDot fn).map lowerChar = ext := by
    by_cases hcx : fn.contains '.' = true
    · refine ⟨hcx, ?_⟩
      rw [extOf, if_pos hcx] at hext
      exact Option.some.inj hext
    · rw [extOf, if_neg hcx] at hext
      cases hext
  have hne : fn.isEmpty = false := by
    cases fn with
    | nil => exact absurd hdotext.1 (by decide)
    | cons a l => rfl
  have hsz : ¬(5242880 < data.length) := by omega
  cases fmt
  case png =>
    have hextv : ext = "png".toList := by simpa [extMatchesFormat] using hmatch
    have hall : allowed_file fn = true := by
      rw [allowed_file, hdotext.1, hdotext.2, hextv]
      decide
    simp [validate_image_file, hne, hall, hdec, hsz, formatName]
  case jpeg =>
    have hextv : ext = "jpg".toList ∨ ext = "jpeg".toList := by
      simpa [extMatchesFormat] using hmatch
    have hall : allowed_file fn = true := by
      rw [allowed_file, hdotext.1, hdotext.2]
      rcases hextv with hx | hx <;> rw [hx] <;> decide
    simp [validate_image_file, hne, hall, hdec, hsz, formatName]
  case gif =>
    have hextv : ext = "gif".toList := by simpa [extMatchesFormat] using hmatch
    have hall : allowed_file fn = true := by
      rw [allowed_file, hdotext.1, hdotext.2, hextv]
      decide
    simp [validate_image_file, hne, hall, hdec, hsz, formatName]
  case bmp => exact absurd hmatch (by simp [extMatchesFormat])
  case webp => exact absurd hmatch (by simp [extMatchesFormat])

/-- C9 witness: a 1 by 1 PNG declared as `a.png`. -/
theorem C9_witness :
    decodeImage pngBytesRGB = some ⟨ImgFormat.png, 1, 1, Mode.RGB⟩
    ∧ extOf "a.png".toList = some "png".toList
    ∧ extMatchesFormat "png".toList ImgFormat.png = true
    ∧ pngBytesRGB.length ≤ 5 * 1024 * 1024
    ∧ validate_image_file ⟨"a.png".toList, pngBytesRGB, 0⟩ =
        ((true, "Valid image".toList), ⟨"a.png".toList, pngBytesRGB, 0⟩) :=
  ⟨by decide, by decide, by decide, by decide,
    C9_valid_upload_accepted ⟨"a.png".toList, pngBytesRGB, 0⟩ ⟨ImgFormat.png, 1, 1, Mode.RGB⟩
      "png".toList rfl (by decide) (by decide) (by decide) (by decide)⟩

/-- On a nonempty store `ORDER BY RANDOM() LIMIT 1` returns the row whose
random key is minimal, namely the one at index `scryIndex`. -/
theorem get_random_submission_cons (a : Row) (l : List Row)
    (p : Equiv.Perm (Fin (a :: l).length)) :
    get_random_submission (a :: l) p =
      some ((a :: l).get (scryIndex (Nat.succ_pos l.length) p)) := by
  rw [get_random_submission, orderByRandom, List.ofFn_succ, List.head?_cons, scryIndex]
  congr 2

/-- C7: `get_random_submission` returns `none` exactly on the empty store;
on a nonempty store it returns one of the stored rows; and, with the
randomness idealised as a uniformly random permutation of row keys, each
distinct row is returned under exactly as many permutations as any other —
uniform selection with no bias toward insertion order or id value. -/
theorem C7_fetchRandom_uniform :
    (∀ (rows : List Row) (p : Equiv.Perm (Fin rows.length)),
        get_random_submission rows p = none ↔ rows = [])
    ∧ (∀ (rows : List Row) (p : Equiv.Perm (Fin rows.length)) (r : Row),
        get_random_submission rows p = some r → r ∈ rows)
    ∧ (∀ (rows : List Row) (_ : rows.Nodup) (i j : Fin rows.length),
        (Finset.univ.filter fun p : Equiv.Perm (Fin rows.length) =>
            get_random_submission rows p = some (rows.get i)).card
      = (Finset.univ.filter fun p : Equiv.Perm (Fin rows.length) =>
            get_random_submission rows p = some (rows.get j)).card) := by
  refine ⟨?_, ?_, ?_⟩
  · intro rows p
    cases rows with
    | nil => simp [get_random_submission, orderByRandom]
    | cons a l => simp [get_random_submission_cons]
  · intro rows p r hr
    cases rows with
    | nil => simp [get_random_submission, orderByRandom] at hr
    | cons a l =>
      rw [get_random_submission_cons] at hr
      rw [← Option.some.inj hr]
      exact List.get_mem _ _ _
  · intro rows hnd i j
    cases rows with
    | nil => exact absurd i.isLt (by simp)
    | cons a l =>
      have hcond : ∀ (k : Fin (a :: l).length) (p : Equiv.Perm (Fin (a :: l).length)),
          (get_random_submission (a :: l) p = some ((a :: l).get k)) ↔
            p.symm ⟨0, Nat.succ_pos l.length⟩ = k := by
        intro k p
        rw [get_random_submission_cons, Option.some.injEq, hnd.get_inj_iff, scryIndex]
      rw [Finset.filter_congr (fun p _ => hcond i p),
        Finset.filter_congr (fun p _ => hcond j p)]
      refine Finset.card_nbij' (fun p => p * Equiv.swap i j) (fun p => p * Equiv.swap i j)
        ?_ ?_ ?_ ?_
      · intro p hp
        simp only [Finset.mem_filter, Finset.mem_univ, true_and] at hp ⊢
        rw [Equiv.Perm.mul_def, Equiv.symm_trans_apply, Equiv.symm_swap, hp,
          Equiv.swap_apply_left]
      · intro p hp
        simp only [Finset.mem_filter, Finset.mem_univ, true_and] at hp ⊢
        rw [Equiv.Perm.mul_def, Equiv.symm_trans_apply, Equiv.symm_swap, hp,
          Equiv.swap_apply_right]
      · intro p _
        dsimp only
        rw [mul_assoc, Equiv.swap_mul_self, mul_one]
      · intro p _
        dsimp only
        rw [mul_assoc, Equiv.swap_mul_self, mul_one]

/-- C7 witness: a two-row store with distinct rows — a concrete draw returns
a stored row, and the permutation counts under which each of the two rows is
returned are equal. -/
theorem C7_witness :
    rowsPair.Nodup
    ∧ get_random_submission rowsPair (Equiv.refl _) = some (rowsPair.get ⟨0, by decide⟩)
    ∧ rowsPair.get ⟨0, by decide⟩ ∈ rowsPair
    ∧ (Finset.univ.filter fun p : Equiv.Perm (Fin rowsPair.length) =>
          get_random_submission rowsPair p = some (rowsPair.get ⟨0, by decide⟩)).card
      = (Finset.univ.filter fun p : Equiv.Perm (Fin rowsPair.length) =>
          get_random_submission rowsPair p = some (rowsPair.get ⟨1, by decide⟩)).card :=
  ⟨by decide, by decide,
    C7_fetchRandom_uniform.2.1 rowsPair (Equiv.refl _) _ (by decide),
    C7_fetchRandom_uniform.2.2 rowsPair (by decide) ⟨0, by decide⟩ ⟨1, by decide⟩⟩
